import Mathlib

/-!
Verification of the Avalon Miner CLI protocol client (`avalon_miner_cli.py`).

The development shallowly embeds the protocol codec, the response
normalizer, the packed-field extractor, the unit formatters and the
parameter-building / confirmation logic of the command executor, and
proves (or refutes) the frozen claims about them.

Strings are modelled as Lean `String`/`List Char` (sequences of Unicode
scalar values); the UTF-8 encode/decode performed by the Python socket
layer is the identity on this domain and is elided.
-/

namespace AvalonMiner

/-! ## JSON values

The codec layer (`send_command`, lines 59-67 and 95-97) serializes the
command object with `json.dumps(..., separators=(',', ':'))` and parses
replies with `json.loads`.  JSON numbers are modelled as integers only
(no payload relevant to the claims contains a fractional number). -/

inductive Json where
  | str (s : String)
  | num (n : Int)
  | bool (b : Bool)
  | null
  | arr (xs : List Json)
  | obj (fields : List (String × Json))

/-- Lowercase hex digit, as produced by Python's `'%04x'` formatting. -/
def hexDig (d : Nat) : Char :=
  match d with
  | 0 => '0' | 1 => '1' | 2 => '2' | 3 => '3'
  | 4 => '4' | 5 => '5' | 6 => '6' | 7 => '7'
  | 8 => '8' | 9 => '9' | 10 => 'a' | 11 => 'b'
  | 12 => 'c' | 13 => 'd' | 14 => 'e' | _ => 'f'

/-- Four lowercase hex digits (the `\uXXXX` payload of `json.dumps`). -/
def hex4 (n : Nat) : List Char :=
  [hexDig (n / 16 / 16 / 16 % 16), hexDig (n / 16 / 16 % 16),
   hexDig (n / 16 % 16), hexDig (n % 16)]

/-- Escape of a single character, following CPython's
`json.encoder.py_encode_basestring_ascii` (`ensure_ascii=True`, the
`json.dumps` default used by `send_command`): `"` and `\` get a
backslash escape, control characters use the short escapes
`\b \t \n \f \r` or `\u00xx`, printable ASCII is literal, all other
characters become `\uXXXX` (a surrogate pair beyond the BMP). -/
def escapeChar (c : Char) : List Char :=
  if c = '"' then ['\\', '"']
  else if c = '\\' then ['\\', '\\']
  else if c.toNat = 8 then ['\\', 'b']
  else if c.toNat = 9 then ['\\', 't']
  else if c.toNat = 10 then ['\\', 'n']
  else if c.toNat = 12 then ['\\', 'f']
  else if c.toNat = 13 then ['\\', 'r']
  else if c.toNat < 0x20 then '\\' :: 'u' :: hex4 c.toNat
  else if c.toNat ≤ 0x7e then [c]
  else if c.toNat < 0x10000 then '\\' :: 'u' :: hex4 c.toNat
  else '\\' :: 'u' :: hex4 (0xd800 + (c.toNat - 0x10000) / 0x400) ++
       '\\' :: 'u' :: hex4 (0xdc00 + (c.toNat - 0x10000) % 0x400)

/-- Escape of a whole string. -/
def escapeList (s : List Char) : List Char :=
  match s with
  | [] => []
  | c :: s => escapeChar c ++ escapeList s

/-- A JSON string literal: quoted escaped content. -/
def quoteJson (s : List Char) : List Char :=
  '"' :: escapeList s ++ ['"']

/-- Wire form of `{"command": c}` (lines 65-67: `json.dumps` with
`separators=(',', ':')`, so no inserted whitespace). -/
def encodeCmdOnly (c : List Char) : List Char :=
  '{' :: quoteJson "command".data ++ ':' :: quoteJson c ++ ['}']

/-- Wire form of `{"command": c, "parameter": p}` (lines 60-63); Python
dicts preserve insertion order, so `command` precedes `parameter`. -/
def encodeCmdParam (c p : List Char) : List Char :=
  '{' :: quoteJson "command".data ++ ':' :: quoteJson c ++
  ',' :: quoteJson "parameter".data ++ ':' :: quoteJson p ++ ['}']

/-- The payload built by `send_command` (lines 59-67): the `parameter`
key is emitted only when `params` is truthy, i.e. non-empty. -/
def send_command_payload (c p : List Char) : List Char :=
  if p = [] then encodeCmdOnly c else encodeCmdParam c p

/-! ## JSON decoding (`json.loads`)

A character-level parser for the JSON dialect produced by the device
and by the encoder above.  Strings implement the full escape syntax of
the CPython scanner in strict mode (raw control characters rejected,
`\uXXXX` with surrogate-pair recombination; a lone surrogate — which a
Lean `Char` cannot represent — is rejected).  Numbers are restricted to
integers.  Recursion is fuel-based; `json_loads` supplies ample fuel. -/

/-- Value of a hex digit, both cases (as accepted by the scanner). -/
def hexVal (c : Char) : Option Nat :=
  if '0' ≤ c ∧ c ≤ '9' then some (c.toNat - '0'.toNat)
  else if 'a' ≤ c ∧ c ≤ 'f' then some (c.toNat - 'a'.toNat + 10)
  else if 'A' ≤ c ∧ c ≤ 'F' then some (c.toNat - 'A'.toNat + 10)
  else none

/-- Read exactly four hex digits. -/
def parse4Hex (s : List Char) : Option (Nat × List Char) :=
  match s with
  | c1 :: c2 :: c3 :: c4 :: rest =>
    match hexVal c1, hexVal c2, hexVal c3, hexVal c4 with
    | some d1, some d2, some d3, some d4 =>
      some (((d1 * 16 + d2) * 16 + d3) * 16 + d4, rest)
    | _, _, _, _ => none
  | _ => none

/-- Prepend a decoded character to a string-parse result. -/
def pushChar (c : Char) (r : Except String (List Char × List Char)) :
    Except String (List Char × List Char) :=
  match r with
  | .ok (s, rest) => .ok (c :: s, rest)
  | .error e => .error e

/-- Parse the body of a JSON string literal (after the opening quote),
returning the decoded content and the input following the closing
quote. -/
def parseStringBody : Nat → List Char → Except String (List Char × List Char)
  | 0, _ => .error "out of fuel"
  | _ + 1, [] => .error "unterminated string"
  | fuel + 1, c :: rest =>
    if c = '"' then .ok ([], rest)
    else if c = '\\' then
      match rest with
      | [] => .error "unterminated escape"
      | e :: rest2 =>
        if e = '"' then pushChar '"' (parseStringBody fuel rest2)
        else if e = '\\' then pushChar '\\' (parseStringBody fuel rest2)
        else if e = '/' then pushChar '/' (parseStringBody fuel rest2)
        else if e = 'b' then pushChar (Char.ofNat 8) (parseStringBody fuel rest2)
        else if e = 't' then pushChar (Char.ofNat 9) (parseStringBody fuel rest2)
        else if e = 'n' then pushChar (Char.ofNat 10) (parseStringBody fuel rest2)
        else if e = 'f' then pushChar (Char.ofNat 12) (parseStringBody fuel rest2)
        else if e = 'r' then pushChar (Char.ofNat 13) (parseStringBody fuel rest2)
        else if e = 'u' then
          match parse4Hex rest2 with
          | none => .error "invalid hex escape"
          | some (n, rest3) =>
            if 0xd800 ≤ n ∧ n < 0xdc00 then
              match rest3 with
              | '\\' :: 'u' :: rest4 =>
                match parse4Hex rest4 with
                | none => .error "invalid hex escape"
                | some (m, rest5) =>
                  if 0xdc00 ≤ m ∧ m < 0xe000 then
                    pushChar (Char.ofNat (0x10000 + (n - 0xd800) * 0x400 + (m - 0xdc00)))
                      (parseStringBody fuel rest5)
                  else .error "unpaired surrogate"
              | _ => .error "unpaired surrogate"
            else if 0xdc00 ≤ n ∧ n < 0xe000 then .error "unpaired surrogate"
            else pushChar (Char.ofNat n) (parseStringBody fuel rest3)
        else .error "invalid escape"
    else if c.toNat < 0x20 then .error "invalid control character"
    else pushChar c (parseStringBody fuel rest)

/-- JSON insignificant whitespace. -/
def isJsonWs (c : Char) : Bool :=
  c = ' ' ∨ c = '\t' ∨ c = '\n' ∨ c = '\r'

/-- Skip insignificant whitespace. -/
def skipWs (s : List Char) : List Char :=
  s.dropWhile isJsonWs

/-- Integer-only JSON number parse (leading `-` and digits). -/
def parseIntLit (s : List Char) : Except String (Int × List Char) :=
  match s with
  | '-' :: rest =>
    match parseDigitsFrom rest with
    | some (v, r) => .ok (-(v : Int), r)
    | none => .error "invalid number"
  | _ =>
    match parseDigitsFrom s with
    | some (v, r) => .ok ((v : Int), r)
    | none => .error "invalid number"
where
  parseDigitsFrom (s : List Char) : Option (Nat × List Char) :=
    parseDigitsAux s 0 false
  parseDigitsAux : List Char → Nat → Bool → Option (Nat × List Char)
    | [], acc, seen => if seen then some (acc, []) else none
    | c :: rest, acc, seen =>
      if '0' ≤ c ∧ c ≤ '9' then
        parseDigitsAux rest (acc * 10 + (c.toNat - '0'.toNat)) true
      else if seen then some (acc, c :: rest) else none

/-- Parsing mode: a full value, the members of an object (after `{`,
non-empty), or the items of an array (after `[`, non-empty). -/
inductive PMode where
  | value
  | members
  | items

/-- The recursive JSON parser.  In `members` mode the result is the
`Json.obj` of the remaining members; in `items` mode the `Json.arr` of
the remaining items. -/
def parseAny : Nat → PMode → List Char → Except String (Json × List Char)
  | 0, _, _ => .error "out of fuel"
  | fuel + 1, .value, input =>
    match skipWs input with
    | [] => .error "expecting value"
    | c :: rest =>
      if c = '"' then
        match parseStringBody (rest.length + 1) rest with
        | .ok (s, r) => .ok (.str ⟨s⟩, r)
        | .error e => .error e
      else if c = '{' then
        match skipWs rest with
        | '}' :: rest2 => .ok (.obj [], rest2)
        | _ => parseAny fuel .members rest
      else if c = '[' then
        match skipWs rest with
        | ']' :: rest2 => .ok (.arr [], rest2)
        | _ => parseAny fuel .items rest
      else if c = 't' then
        match rest with
        | 'r' :: 'u' :: 'e' :: rest2 => .ok (.bool true, rest2)
        | _ => .error "expecting value"
      else if c = 'f' then
        match rest with
        | 'a' :: 'l' :: 's' :: 'e' :: rest2 => .ok (.bool false, rest2)
        | _ => .error "expecting value"
      else if c = 'n' then
        match rest with
        | 'u' :: 'l' :: 'l' :: rest2 => .ok (.null, rest2)
        | _ => .error "expecting value"
      else
        match parseIntLit (c :: rest) with
        | .ok (v, r) => .ok (.num v, r)
        | .error e => .error e
  | fuel + 1, .members, input =>
    match skipWs input with
    | '"' :: rest =>
      match parseStringBody (rest.length + 1) rest with
      | .error e => .error e
      | .ok (key, rest2) =>
        match skipWs rest2 with
        | ':' :: rest3 =>
          match parseAny fuel .value rest3 with
          | .error e => .error e
          | .ok (v, rest4) =>
            match skipWs rest4 with
            | ',' :: rest5 =>
              match parseAny fuel .members rest5 with
              | .ok (.obj fields, rest6) => .ok (.obj ((⟨key⟩, v) :: fields), rest6)
              | .ok (_, _) => .error "object members expected"
              | .error e => .error e
            | '}' :: rest5 => .ok (.obj [(⟨key⟩, v)], rest5)
            | _ => .error "expecting , delimiter"
        | _ => .error "expecting : delimiter"
    | _ => .error "expecting property name"
  | fuel + 1, .items, input =>
    match parseAny fuel .value input with
    | .error e => .error e
    | .ok (v, rest) =>
      match skipWs rest with
      | ',' :: rest2 =>
        match parseAny fuel .items rest2 with
        | .ok (.arr xs, rest3) => .ok (.arr (v :: xs), rest3)
        | .ok (_, _) => .error "array items expected"
        | .error e => .error e
      | ']' :: rest2 => .ok (.arr [v], rest2)
      | _ => .error "expecting , delimiter"

/-- `json.loads`: parse one value, then allow only trailing
whitespace. -/
def json_loads (s : List Char) : Except String Json :=
  match parseAny (s.length + 1) .value s with
  | .ok (v, rest) => if skipWs rest = [] then .ok v else .error "extra data"
  | .error e => .error e

/-- Python `str.rstrip('\x00')` / `str.strip()` padding removal (line
96: `response.decode('utf-8').rstrip('\x00').strip()`).  Whitespace is
modelled by the ASCII whitespace characters. -/
def isPyWs (c : Char) : Bool :=
  c = ' ' ∨ c = '\t' ∨ c = '\n' ∨ c = '\r' ∨ c.toNat = 11 ∨ c.toNat = 12

/-- Drop matching characters from the right end. -/
def rstripIf (p : Char → Bool) (s : List Char) : List Char :=
  (s.reverse.dropWhile p).reverse

/-- Strip protocol padding: trailing NUL bytes, then surrounding
whitespace. -/
def stripPadding (s : List Char) : List Char :=
  (rstripIf isPyWs (rstripIf (fun c => c.toNat = 0) s)).dropWhile isPyWs

/-- The codec's decode layer (lines 95-97): de-pad, then `json.loads`. -/
def decode_response (s : List Char) : Except String Json :=
  json_loads (stripPadding s)

/-! ## Decoded responses

The data model of §3: a `RawResponse` maps uppercase section names to
either a list of objects or a single bare object; an object maps field
names to scalar values (string or number — the shapes the claims range
over). -/

/-- A scalar field value of a response object. -/
inductive FieldVal where
  | str (s : String)
  | num (n : Int)
  deriving Repr, DecidableEq

/-- A response object: ordered field assignments, as `json.loads`
yields them. -/
abbrev RObj := List (String × FieldVal)

/-- A section value: a list of objects or a single bare object. -/
inductive SectionVal where
  | list (objs : List RObj)
  | one (o : RObj)
  deriving Repr, DecidableEq

/-- A decoded device response. -/
abbrev RawResponse := List (String × SectionVal)

/-- Python `dict` key lookup. -/
def rlookup (r : RawResponse) (name : String) : Option SectionVal :=
  match r with
  | [] => none
  | (k, v) :: rest => if k = name then some v else rlookup rest name

/-- Field lookup inside an object (`dict.get`). -/
def flookup (o : RObj) (name : String) : Option FieldVal :=
  match o with
  | [] => none
  | (k, v) :: rest => if k = name then some v else flookup rest name

/-- Python `len` of a section value (`len` of a list, or of a dict). -/
def sectionLen (v : SectionVal) : Nat :=
  match v with
  | .list objs => objs.length
  | .one o => o.length

/-- Substring test: does `needle` occur inside `hay` (Python's
`needle in hay`)? -/
def containsSub (hay needle : List Char) : Bool :=
  match hay with
  | [] => needle.isPrefixOf []
  | _ :: rest => needle.isPrefixOf hay || containsSub rest needle

/-- The success predicate `check_status` (lines 166-174).  The only
Python-level fault it can hit is a non-string `Msg` (the `in` operator
raises `TypeError`); this is surfaced as `Except.error`.  Otherwise:
the `STATUS` key must be present with `len > 0`; the first element of
a list (or the bare object) supplies `Msg` (defaulted to the empty
string), and success is `'ASC 0 set OK' in msg or 'OK' in msg`. -/
def check_status (r : RawResponse) : Except String Bool :=
  match rlookup r "STATUS" with
  | none => .ok false
  | some v =>
    if sectionLen v > 0 then
      let o := match v with
        | .list objs => objs.headD []
        | .one o => o
      match flookup o "Msg" with
      | some (.num _) => .error "TypeError: argument of type int is not iterable"
      | some (.str s) =>
        .ok (containsSub s.data "ASC 0 set OK".data || containsSub s.data "OK".data)
      | none => .ok (containsSub [] "ASC 0 set OK".data || containsSub [] "OK".data)
    else .ok false

/-- The response normalizer `firstOf`, as inlined at the ordinary call
sites (e.g. `cmd_lcd` lines 282-283: guard `name in response and
len(response[name]) > 0`, then `response[name][0] if isinstance(...,
list) else response[name]`). -/
def firstOf (r : RawResponse) (name : String) : Option RObj :=
  match rlookup r name with
  | none => none
  | some v =>
    if sectionLen v > 0 then
      some (match v with
        | .list objs => objs.headD []
        | .one o => o)
    else none

/-- `cmd_info`'s VERSION access (line 356):
`ver_response.get('VERSION', [{}])[0]`.  Unlike `firstOf` this raises:
`[0]` on an empty list is an `IndexError`, and on a bare object (whose
keys are strings) a `KeyError`. -/
def infoVersionEntry (r : RawResponse) : Except String RObj :=
  match rlookup r "VERSION" with
  | none => .ok []
  | some (.list []) => .error "IndexError: list index out of range"
  | some (.list (o :: _)) => .ok o
  | some (.one _) => .error "KeyError: 0"

/-- `cmd_info`'s LCD access (lines 360-361):
`lcd_list = lcd_response.get('LCD', [])` then
`lcd_list[0] if isinstance(lcd_list, list) and len(lcd_list) > 0 else {}`.
A bare object fails the `isinstance` test and collapses to `{}`. -/
def infoLcdEntry (r : RawResponse) : RObj :=
  match rlookup r "LCD" with
  | some (.list (o :: _)) => o
  | _ => []

/-! ## Field extractor (`parse_estats_field`, lines 148-153)

The Python code builds the regex `rf'{field_name}\[([^\]]+)\]'` and
takes `re.search(...).group(1)`, returning `None` on no match.  For
field names free of regex metacharacters (every name the program uses
is alphanumeric) this is: the leftmost occurrence of
`name [ <one or more non-brackets> ]`, whose bracketed content is
returned.  Note the `+`: an occurrence `name[]` with empty content
does not match and is skipped. -/

/-- Attempt the pattern at the start of `s`: literal `name`, `[`, a
non-empty run of non-`]` characters, then `]`. -/
def tryMatchAt (s name : List Char) : Option (List Char) :=
  if (name ++ ['[']).isPrefixOf s then
    let afterOpen := s.drop (name.length + 1)
    let run := afterOpen.takeWhile (fun c => ¬ (c = ']'))
    if run.length > 0 ∧ afterOpen.drop run.length ≠ [] then some run else none
  else none

/-- Leftmost-match scan (`re.search`). -/
def searchEstats : List Char → List Char → Option (List Char)
  | [], name => tryMatchAt [] name
  | c :: rest, name =>
    match tryMatchAt (c :: rest) name with
    | some v => some v
    | none => searchEstats rest name

/-- `parse_estats_field` (lines 148-153): first match of
`name[...]` with non-empty bracket content, else absent (`None`). -/
def parse_estats_field (packed name : String) : Option String :=
  (searchEstats packed.data name.data).map (fun l => ⟨l⟩)

/-! ## Unit formatters -/

/-- `get_work_mode_name` (lines 156-163): fixed three-entry table with
an `Unknown (<code>)` default. -/
def get_work_mode_name (mode_value : String) : String :=
  if mode_value = "0" then "Eco"
  else if mode_value = "1" then "Standard"
  else if mode_value = "2" then "Super"
  else "Unknown (" ++ mode_value ++ ")"

/-- Two-digit zero-padded rendering of `k < 100`. -/
def pad2 (k : Nat) : String :=
  if k < 10 then "0" ++ toString k else toString k

/-- Round-half-even to the nearest integer (the rounding of Python's
`format(x, '.2f')` applied to an exactly-represented value). -/
def roundHalfEven (q : ℚ) : ℤ :=
  let f := ⌊q⌋
  if q - f < 1 / 2 then f
  else if q - f > 1 / 2 then f + 1
  else if f % 2 = 0 then f else f + 1

/-- Python `f"{q:.2f}"` on an exactly-represented value: two decimal
places, round-half-even. -/
def fmt2 (q : ℚ) : String :=
  if q < 0 then
    let a := (roundHalfEven (-q * 100)).toNat
    "-" ++ toString (a / 100) ++ "." ++ pad2 (a % 100)
  else
    let a := (roundHalfEven (q * 100)).toNat
    toString (a / 100) ++ "." ++ pad2 (a % 100)

/-- `format_difficulty` (lines 118-131): scale by the largest
applicable suffix, two decimals.  The Python float argument is
modelled as an exact rational. -/
def format_difficulty (diff : ℚ) : String :=
  if diff ≥ 10 ^ 15 then fmt2 (diff / 10 ^ 15) ++ " P"
  else if diff ≥ 10 ^ 12 then fmt2 (diff / 10 ^ 12) ++ " T"
  else if diff ≥ 10 ^ 9 then fmt2 (diff / 10 ^ 9) ++ " G"
  else if diff ≥ 10 ^ 6 then fmt2 (diff / 10 ^ 6) ++ " M"
  else if diff ≥ 10 ^ 3 then fmt2 (diff / 10 ^ 3) ++ " K"
  else fmt2 diff

/-! ## Command executor: parameter building and confirmation flow -/

/-- Outcome of a mutating operation up to the point of the (single)
network call: it either aborts client-side, or sends exactly one
command with a parameter string. -/
inductive OpOutcome where
  | invalidParameter
  | cancelled
  | sent (command : String) (params : String)
  deriving Repr, DecidableEq

/-- `cmd_set_fan_speed`'s argument record (argparse namespace). -/
structure FanArgs where
  auto : Bool
  speed : Option Int
  min_speed : Option Int
  max_speed : Option Int

/-- `cmd_set_fan_speed` (lines 456-481) up to the `send_command`
call: validation and parameter-string construction. -/
def cmd_set_fan_speed (args : FanArgs) : OpOutcome :=
  if args.auto then .sent "ascset" "0,fan-spd,-1"
  else match args.speed with
  | some s =>
    if ¬ (25 ≤ s ∧ s ≤ 100) then .invalidParameter
    else .sent "ascset" ("0,fan-spd," ++ toString s)
  | none =>
    match args.min_speed, args.max_speed with
    | some lo, some hi =>
      if ¬ (25 ≤ lo ∧ lo ≤ 100 ∧ 25 ≤ hi ∧ hi ≤ 100) then .invalidParameter
      else if lo > hi then .invalidParameter
      else .sent "ascset" ("0,fan-spd," ++ toString lo ++ ".." ++ toString hi)
    | _, _ => .invalidParameter

/-- ASCII lowercasing (Python `str.lower` on the ASCII range). -/
def strLower (s : String) : String :=
  ⟨s.data.map Char.toLower⟩

/-- `cmd_set_voltage` (lines 649-660) up to the `send_command` call:
without `--force`, any confirmation answer whose lowercase form is not
`"yes"` cancels before any network I/O. -/
def cmd_set_voltage (voltage : Int) (force : Bool) (answer : String) : OpOutcome :=
  if ¬ force ∧ strLower answer ≠ "yes" then .cancelled
  else .sent "ascset" ("0,voltage," ++ toString voltage)

/-- `cmd_reboot` (lines 671-688) up to the `send_command` call: the
delay is validated first, then the confirmation gate runs as in
`cmd_set_voltage`. -/
def cmd_reboot (delay : Int) (force : Bool) (answer : String) : OpOutcome :=
  if ¬ (0 ≤ delay ∧ delay ≤ 300) then .invalidParameter
  else if ¬ force ∧ strLower answer ≠ "yes" then .cancelled
  else .sent "ascset" ("0,reboot," ++ toString delay)

/-! ## Specification-side predicates used to state the claims -/

/-- Spec-side success criterion for claim C1: the normalized `STATUS`
entry is present and its message string contains the literal substring
`"OK"`. -/
def status_msg_contains_ok (r : RawResponse) : Bool :=
  match firstOf r "STATUS" with
  | some o =>
    match flookup o "Msg" with
    | some (.str s) => containsSub s.data "OK".data
    | some (.num _) => false
    | none => false
  | none => false

/-- Key lookup among decoded JSON object fields. -/
def jlookup (fields : List (String × Json)) (name : String) : Option Json :=
  match fields with
  | [] => none
  | (k, v) :: rest => if k = name then some v else jlookup rest name

/-- The `parameter` value recovered by decoding the wire form of a
command (used to state the round-trip claim). -/
def decodedParam (c p : String) : Option Json :=
  match decode_response (send_command_payload c.data p.data) with
  | .ok (.obj fields) => jlookup fields "parameter"
  | _ => none

/-- Does the extractor's pattern match at offset `i` of `packed`? -/
def estatsHitAt (packed name : List Char) (i : Nat) : Bool :=
  (tryMatchAt (packed.drop i) name).isSome

/-! # Theorems -/

/-! ## Substring facts -/

theorem containsSub_isInfix_iff (hay needle : List Char) :
    containsSub hay needle = true ↔ needle <:+: hay := by
  induction hay with
  | nil =>
    simp only [containsSub, List.isPrefixOf_iff_prefix, List.prefix_nil, List.infix_nil]
  | cons c rest ih =>
    simp only [containsSub, Bool.or_eq_true, List.isPrefixOf_iff_prefix, ih,
      List.infix_cons_iff]

theorem containsSub_ok_of_asc (s : List Char) :
    containsSub s "ASC 0 set OK".data = true → containsSub s "OK".data = true := by
  intro h
  rw [containsSub_isInfix_iff] at h ⊢
  exact List.IsInfix.trans (by decide) h

/-! ## Claim C1 -/

/-- Claim C1: `check_status` succeeds (returns `true`, without a
Python-level fault) exactly when the normalized `STATUS` section is
present and its message string contains the substring `"OK"`; the
message `"ASC 0 set OK"` is classified as success and
`"Error: invalid"` as failure. -/
theorem c1_check_status_ok_iff :
    (∀ r : RawResponse, check_status r = .ok true ↔ status_msg_contains_ok r = true)
    ∧ check_status [("STATUS", .list [[("Msg", .str "ASC 0 set OK")]])] = .ok true
    ∧ check_status [("STATUS", .list [[("Msg", .str "Error: invalid")]])] = .ok false := by
  refine ⟨?_, rfl, rfl⟩
  intro r
  rcases hr : rlookup r "STATUS" with _ | v
  · simp [check_status, status_msg_contains_ok, firstOf, hr]
  · rcases v with objs | o
    · rcases objs with _ | ⟨o, objs⟩
      · simp [check_status, status_msg_contains_ok, firstOf, hr, sectionLen]
      · rcases hm : flookup o "Msg" with _ | fv
        · simp only [check_status, status_msg_contains_ok, firstOf, hr, hm, sectionLen,
            List.length_cons, gt_iff_lt, Nat.zero_lt_succ, if_true, List.headD_cons]
          constructor
          · intro h
            simp only [Except.ok.injEq] at h
            exact absurd h (by decide)
          · intro h
            exact absurd h (by decide)
        · rcases fv with s | n
          · simp only [check_status, status_msg_contains_ok, firstOf, hr, hm, sectionLen,
              List.length_cons, List.headD_cons, gt_iff_lt, Nat.zero_lt_succ, if_true,
              Except.ok.injEq, Bool.or_eq_true]
            constructor
            · intro h
              rcases h with h | h
              · exact containsSub_ok_of_asc _ h
              · exact h
            · intro h
              exact Or.inr h
          · simp [check_status, status_msg_contains_ok, firstOf, hr, hm, sectionLen]
    · by_cases ho : 0 < o.length
      · rcases hm : flookup o "Msg" with _ | fv
        · simp only [check_status, status_msg_contains_ok, firstOf, hr, hm, sectionLen,
            gt_iff_lt, ho, if_true, Except.ok.injEq]
          constructor
          · intro h
            exact absurd h (by decide)
          · intro h
            exact absurd h (by decide)
        · rcases fv with s | n
          · simp only [check_status, status_msg_contains_ok, firstOf, hr, hm, sectionLen,
              gt_iff_lt, ho, if_true, Except.ok.injEq, Bool.or_eq_true]
            constructor
            · intro h
              rcases h with h | h
              · exact containsSub_ok_of_asc _ h
              · exact h
            · intro h
              exact Or.inr h
          · simp [check_status, status_msg_contains_ok, firstOf, hr, hm, sectionLen, ho]
      · simp [check_status, status_msg_contains_ok, firstOf, hr, sectionLen, ho]

/-! ## Claim C9 -/

/-- Claim C9 (implicit): `check_status` classifies as failure — and
does not raise — when the `STATUS` key is absent, when it maps to an
empty list or an empty object, and when the status entry lacks a
`Msg` field. -/
theorem c9_check_status_degenerate :
    (∀ r : RawResponse, rlookup r "STATUS" = none → check_status r = .ok false)
    ∧ (∀ r : RawResponse, rlookup r "STATUS" = some (.list []) → check_status r = .ok false)
    ∧ (∀ r : RawResponse, rlookup r "STATUS" = some (.one []) → check_status r = .ok false)
    ∧ (∀ (r : RawResponse) (o : RObj) (objs : List RObj),
        rlookup r "STATUS" = some (.list (o :: objs)) → flookup o "Msg" = none →
        check_status r = .ok false)
    ∧ (∀ (r : RawResponse) (o : RObj),
        rlookup r "STATUS" = some (.one o) → flookup o "Msg" = none →
        check_status r = .ok false) := by
  refine ⟨?_, ?_, ?_, ?_, ?_⟩
  · intro r h
    simp [check_status, h]
  · intro r h
    simp [check_status, h, sectionLen]
  · intro r h
    simp [check_status, h, sectionLen]
  · intro r o objs h hm
    simp only [check_status, h, sectionLen, List.length_cons, gt_iff_lt, Nat.zero_lt_succ,
      if_true, List.headD_cons, hm]
    exact congrArg Except.ok (by decide)
  · intro r o h hm
    by_cases ho : 0 < o.length
    · simp only [check_status, h, sectionLen, gt_iff_lt, ho, if_true, hm]
      exact congrArg Except.ok (by decide)
    · simp [check_status, h, sectionLen, ho]

/-- Witness for C9 at concrete degenerate responses. -/
theorem c9_check_status_degenerate_witness :
    check_status [] = .ok false
    ∧ check_status [("STATUS", .list [])] = .ok false
    ∧ check_status [("STATUS", .one [])] = .ok false
    ∧ check_status [("STATUS", .list [[("Code", .num 14)]])] = .ok false
    ∧ check_status [("STATUS", .one [("Code", .num 14)])] = .ok false :=
  ⟨c9_check_status_degenerate.1 [] rfl,
   c9_check_status_degenerate.2.1 _ rfl,
   c9_check_status_degenerate.2.2.1 _ rfl,
   c9_check_status_degenerate.2.2.2.1 _ [("Code", .num 14)] [] rfl rfl,
   c9_check_status_degenerate.2.2.2.2 _ [("Code", .num 14)] rfl rfl⟩

/-! ## Claim C2 -/

/-- Counterexample to claim C2 as stated: the section normalization is
not uniform and not fault-free at every call site.  A bare empty
object normalizes to absent (not to the object itself); `cmd_info`'s
VERSION access raises on an empty list; and `cmd_info`'s LCD access
collapses a non-empty bare object to `{}` instead of keeping it. -/
theorem c2_counterexample :
    firstOf [("LCD", .one [])] "LCD" ≠ some []
    ∧ infoVersionEntry [("VERSION", .list [])] = .error "IndexError: list index out of range"
    ∧ infoVersionEntry [("VERSION", .one [("PROD", .str "AvalonMiner")])] = .error "KeyError: 0"
    ∧ infoLcdEntry [("LCD", .one [("User", .str "worker")])] = [] := by
  refine ⟨?_, rfl, rfl, rfl⟩
  intro h
  simp [firstOf, rlookup, sectionLen] at h

/-- Claim C2, amended: the inline firstOf pattern (used by `cmd_lcd`,
`check_status`, `cmd_summary`, …) yields the first element of a
non-empty list, the bare object itself when it is non-empty, and
absent when the key is missing, the list is empty, or the bare object
is empty — and never raises.  `cmd_info` deviates: its VERSION access
(`.get('VERSION', [{}])[0]`) raises IndexError on an empty list and
KeyError on a bare object, and its LCD access treats every bare object
as absent. -/
theorem c2_firstOf_normalization :
    (∀ (r : RawResponse) (n : String) (o : RObj) (objs : List RObj),
        rlookup r n = some (.list (o :: objs)) → firstOf r n = some o)
    ∧ (∀ (r : RawResponse) (n : String) (o : RObj),
        rlookup r n = some (.one o) → 0 < o.length → firstOf r n = some o)
    ∧ (∀ (r : RawResponse) (n : String), rlookup r n = none → firstOf r n = none)
    ∧ (∀ (r : RawResponse) (n : String),
        rlookup r n = some (.list []) → firstOf r n = none)
    ∧ (∀ (r : RawResponse) (n : String) (o : RObj),
        rlookup r n = some (.one o) → o.length = 0 → firstOf r n = none)
    ∧ (∀ r : RawResponse, rlookup r "VERSION" = some (.list []) →
        infoVersionEntry r = .error "IndexError: list index out of range")
    ∧ (∀ (r : RawResponse) (o : RObj), rlookup r "VERSION" = some (.one o) →
        infoVersionEntry r = .error "KeyError: 0")
    ∧ (∀ (r : RawResponse) (o : RObj), rlookup r "LCD" = some (.one o) →
        infoLcdEntry r = []) := by
  refine ⟨?_, ?_, ?_, ?_, ?_, ?_, ?_, ?_⟩
  · intro r n o objs h
    simp [firstOf, h, sectionLen]
  · intro r n o h ho
    simp [firstOf, h, sectionLen, ho]
  · intro r n h
    simp [firstOf, h]
  · intro r n h
    simp [firstOf, h, sectionLen]
  · intro r n o h ho
    simp [firstOf, h, sectionLen, ho]
  · intro r h
    simp [infoVersionEntry, h]
  · intro r o h
    simp [infoVersionEntry, h]
  · intro r o h
    simp [infoLcdEntry, h]

/-- Witness for the amended C2 at concrete responses. -/
theorem c2_firstOf_normalization_witness :
    firstOf [("LCD", .list [[("User", .str "w")]])] "LCD" = some [("User", .str "w")]
    ∧ firstOf [("LCD", .one [("User", .str "w")])] "LCD" = some [("User", .str "w")]
    ∧ firstOf [("LCD", .list [])] "LCD" = none
    ∧ firstOf [] "LCD" = none
    ∧ infoVersionEntry [("VERSION", .list [])] = .error "IndexError: list index out of range"
    ∧ infoLcdEntry [("LCD", .one [("User", .str "w")])] = [] :=
  ⟨c2_firstOf_normalization.1 _ "LCD" _ [] rfl,
   c2_firstOf_normalization.2.1 _ "LCD" _ rfl (by decide),
   c2_firstOf_normalization.2.2.2.1 _ "LCD" rfl,
   c2_firstOf_normalization.2.2.1 _ "LCD" rfl,
   c2_firstOf_normalization.2.2.2.2.2.1 _ rfl,
   c2_firstOf_normalization.2.2.2.2.2.2.2 _ _ rfl⟩

/-! ## Claim C5 -/

/-- Claim C5: for valid fan percentages 25 ≤ p1 ≤ p2 ≤ 100 the
range-mode operation sends `ascset` with the parameter string
`0,fan-spd,<p1>..<p2>`; for p1 > p2 or a value outside [25,100] it
fails client-side (no parameter string is built, nothing is sent). -/
theorem c5_fan_range_params :
    (∀ p1 p2 : Int, 25 ≤ p1 → p1 ≤ p2 → p2 ≤ 100 →
      cmd_set_fan_speed ⟨false, none, some p1, some p2⟩ =
        .sent "ascset" ("0,fan-spd," ++ toString p1 ++ ".." ++ toString p2))
    ∧ (∀ p1 p2 : Int,
        (p1 > p2 ∨ p1 < 25 ∨ p1 > 100 ∨ p2 < 25 ∨ p2 > 100) →
        cmd_set_fan_speed ⟨false, none, some p1, some p2⟩ = .invalidParameter) := by
  constructor
  · intro p1 p2 h1 h2 h3
    simp only [cmd_set_fan_speed, Bool.false_eq_true, if_false]
    rw [if_neg (by push_neg; omega), if_neg (by omega)]
  · intro p1 p2 h
    simp only [cmd_set_fan_speed, Bool.false_eq_true, if_false]
    by_cases hr : 25 ≤ p1 ∧ p1 ≤ 100 ∧ 25 ≤ p2 ∧ p2 ≤ 100
    · rw [if_neg (by push_neg; exact hr)]
      rw [if_pos (by omega)]
    · rw [if_pos hr]

/-- Witness for C5: the range 30..80 builds its exact parameter
string, and the inverted range 80..30 is rejected. -/
theorem c5_fan_range_params_witness :
    cmd_set_fan_speed ⟨false, none, some 30, some 80⟩ = .sent "ascset" "0,fan-spd,30..80"
    ∧ cmd_set_fan_speed ⟨false, none, some 80, some 30⟩ = .invalidParameter :=
  ⟨c5_fan_range_params.1 30 80 (by decide) (by decide) (by decide),
   c5_fan_range_params.2 80 30 (Or.inl (by decide))⟩

/-! ## Claim C6 -/

/-- Claim C6: without the `--force` bypass, a confirmation answer
other than (case-insensitive) `yes` makes the voltage-change and
reboot operations terminate cancelled, sending nothing. -/
theorem c6_confirmation_cancels :
    (∀ (v : Int) (ans : String), strLower ans ≠ "yes" →
      cmd_set_voltage v false ans = .cancelled)
    ∧ (∀ (d : Int) (ans : String), 0 ≤ d → d ≤ 300 → strLower ans ≠ "yes" →
      cmd_reboot d false ans = .cancelled) := by
  constructor
  · intro v ans h
    simp [cmd_set_voltage, h]
  · intro d ans h0 h300 h
    rw [cmd_reboot, if_neg (by push_neg; omega)]
    simp [h]

/-- Witness for C6: answering no cancels both operations. -/
theorem c6_confirmation_cancels_witness :
    cmd_set_voltage 1250 false "no" = .cancelled
    ∧ cmd_reboot 0 false "No" = .cancelled :=
  ⟨c6_confirmation_cancels.1 1250 "no" (by decide),
   c6_confirmation_cancels.2 0 "No" (by decide) (by decide) (by decide)⟩

/-! ## Claim C7 -/

/-- Claim C7: the work-mode name mapping is total: codes 0, 1, 2 map
to Eco, Standard, Super, and every other string maps to
`Unknown (<code>)`. -/
theorem c7_work_mode_name_total :
    get_work_mode_name "0" = "Eco"
    ∧ get_work_mode_name "1" = "Standard"
    ∧ get_work_mode_name "2" = "Super"
    ∧ (∀ m : String, m ≠ "0" → m ≠ "1" → m ≠ "2" →
        get_work_mode_name m = "Unknown (" ++ m ++ ")") := by
  refine ⟨rfl, rfl, rfl, ?_⟩
  intro m h0 h1 h2
  simp [get_work_mode_name, h0, h1, h2]

/-- Witness for C7 at an unrecognized code. -/
theorem c7_work_mode_name_total_witness :
    get_work_mode_name "7" = "Unknown (7)" :=
  c7_work_mode_name_total.2.2.2 "7" (by decide) (by decide) (by decide)

/-! ## Claim C4 -/

theorem tryMatchAt_nil (name : List Char) : tryMatchAt [] name = none := by
  unfold tryMatchAt
  rw [if_neg]
  rw [List.isPrefixOf_iff_prefix, List.prefix_nil]
  simp

theorem searchEstats_eq_none_iff (s name : List Char) :
    searchEstats s name = none ↔ ∀ i, estatsHitAt s name i = false := by
  induction s with
  | nil =>
    simp [searchEstats, estatsHitAt, tryMatchAt_nil]
  | cons c t ih =>
    cases htm : tryMatchAt (c :: t) name with
    | some v =>
      constructor
      · intro h
        simp [searchEstats, htm] at h
      · intro h
        have h0 := h 0
        simp [estatsHitAt, List.drop_zero, htm] at h0
    | none =>
      constructor
      · intro h i
        have ht : searchEstats t name = none := by
          simpa [searchEstats, htm] using h
        cases i with
        | zero => simp [estatsHitAt, List.drop_zero, htm]
        | succ i => exact (ih.mp ht) i
      · intro h
        have ht : searchEstats t name = none :=
          ih.mpr (fun i => h (i + 1))
        simp [searchEstats, htm, ht]

theorem searchEstats_first (s name : List Char) :
    ∀ i, estatsHitAt s name i = true →
    (∀ j, j < i → estatsHitAt s name j = false) →
    searchEstats s name = tryMatchAt (s.drop i) name := by
  induction s with
  | nil =>
    intro i hi _
    simp [estatsHitAt, tryMatchAt_nil] at hi
  | cons c t ih =>
    intro i hi hj
    cases i with
    | zero =>
      cases htm : tryMatchAt (c :: t) name with
      | none =>
        simp [estatsHitAt, List.drop_zero, htm] at hi
      | some v =>
        simp [searchEstats, htm, List.drop_zero]
    | succ i =>
      have h0 := hj 0 (Nat.succ_pos _)
      have htm : tryMatchAt (c :: t) name = none := by
        cases htm : tryMatchAt (c :: t) name with
        | none => rfl
        | some v => simp [estatsHitAt, htm] at h0
      have hstep : searchEstats (c :: t) name = searchEstats t name := by
        simp [searchEstats, htm]
      rw [hstep, List.drop_succ_cons]
      exact ih i hi (fun j hlt => hj (j + 1) (Nat.succ_lt_succ hlt))

/-- Counterexample to claim C4 as stated: an occurrence `name[]` with
empty bracket content does not yield the empty string — the regex
`name\[([^\]]+)\]` requires at least one non-bracket character, so the
extractor reports absence instead. -/
theorem c4_counterexample :
    parse_estats_field "A[]" "A" = none
    ∧ parse_estats_field "A[]" "A" ≠ some "" := by
  refine ⟨by decide, ?_⟩
  intro h
  rw [show parse_estats_field "A[]" "A" = none from by decide] at h
  exact Option.noConfusion h

/-- Claim C4, amended: the extractor returns the bracketed content of
the leftmost occurrence of `name[` that is followed by one or more
non-`]` characters and a closing `]` (an occurrence `name[]` with
empty content does not match and is skipped); matching is
case-sensitive; when no such occurrence exists the result is absent
(`None`), not an error. -/
theorem c4_parse_estats_field :
    (∀ packed name : String,
      parse_estats_field packed name = none ↔
        ∀ i, estatsHitAt packed.data name.data i = false)
    ∧ (∀ (packed name : String) (i : Nat),
        estatsHitAt packed.data name.data i = true →
        (∀ j, j < i → estatsHitAt packed.data name.data j = false) →
        parse_estats_field packed name =
          (tryMatchAt (packed.data.drop i) name.data).map (fun l => ⟨l⟩))
    ∧ parse_estats_field "a[1]" "A" = none
    ∧ parse_estats_field "T[1]T[2]" "T" = some "1"
    ∧ parse_estats_field "A[]A[5]" "A" = some "5" := by
  refine ⟨?_, ?_, by decide, by decide, by decide⟩
  · intro packed name
    unfold parse_estats_field
    rw [← searchEstats_eq_none_iff]
    cases searchEstats packed.data name.data <;> simp
  · intro packed name i hi hj
    unfold parse_estats_field
    rw [searchEstats_first packed.data name.data i hi hj]

/-- Witness for the amended C4: the pattern hits at offset 0 of
`WORKMODE[1]` and the extractor returns `1`. -/
theorem c4_parse_estats_field_witness :
    estatsHitAt "WORKMODE[1]".data "WORKMODE".data 0 = true
    ∧ parse_estats_field "WORKMODE[1]" "WORKMODE" = some "1" :=
  ⟨by decide, by
    rw [c4_parse_estats_field.2.1 "WORKMODE[1]" "WORKMODE" 0 (by decide)
      (fun j hj => absurd hj (Nat.not_lt_zero j))]
    decide⟩

/-! ## Claim C8 -/

theorem roundHalfEven_natCast (n : ℕ) : roundHalfEven (n : ℚ) = n := by
  unfold roundHalfEven
  rw [Int.floor_natCast]
  rw [if_pos (by push_cast; norm_num)]

theorem fmt2_eq (q : ℚ) (n : ℕ) (h0 : 0 ≤ q) (h : q * 100 = (n : ℚ)) :
    fmt2 q = toString (n / 100) ++ "." ++ pad2 (n % 100) := by
  unfold fmt2
  rw [if_neg (not_lt.mpr h0), h, roundHalfEven_natCast, Int.toNat_natCast]

/-- Claim C8: the difficulty formatter scales by the largest
applicable suffix among P, T, G, M, K with two decimal places, and
renders values below a thousand unscaled with two decimals; in
particular 2500000000 renders as "2.50 G", 999 as "999.00" and
1.5e15 as "1.50 P". -/
theorem c8_format_difficulty :
    (∀ d : ℚ, 10 ^ 15 ≤ d → format_difficulty d = fmt2 (d / 10 ^ 15) ++ " P")
    ∧ (∀ d : ℚ, 10 ^ 12 ≤ d → d < 10 ^ 15 →
        format_difficulty d = fmt2 (d / 10 ^ 12) ++ " T")
    ∧ (∀ d : ℚ, 10 ^ 9 ≤ d → d < 10 ^ 12 →
        format_difficulty d = fmt2 (d / 10 ^ 9) ++ " G")
    ∧ (∀ d : ℚ, 10 ^ 6 ≤ d → d < 10 ^ 9 →
        format_difficulty d = fmt2 (d / 10 ^ 6) ++ " M")
    ∧ (∀ d : ℚ, 10 ^ 3 ≤ d → d < 10 ^ 6 →
        format_difficulty d = fmt2 (d / 10 ^ 3) ++ " K")
    ∧ (∀ d : ℚ, 0 ≤ d → d < 10 ^ 3 → format_difficulty d = fmt2 d)
    ∧ format_difficulty 2500000000 = "2.50 G"
    ∧ format_difficulty 999 = "999.00"
    ∧ format_difficulty 1500000000000000 = "1.50 P" := by
  refine ⟨?_, ?_, ?_, ?_, ?_, ?_, ?_, ?_, ?_⟩
  · intro d h
    rw [format_difficulty, if_pos h]
  · intro d h hlt
    rw [format_difficulty, if_neg (not_le.mpr hlt), if_pos h]
  · intro d h hlt
    rw [format_difficulty, if_neg (by push_neg; linarith), if_neg (not_le.mpr hlt), if_pos h]
  · intro d h hlt
    rw [format_difficulty, if_neg (by push_neg; linarith), if_neg (by push_neg; linarith),
      if_neg (not_le.mpr hlt), if_pos h]
  · intro d h hlt
    rw [format_difficulty, if_neg (by push_neg; linarith), if_neg (by push_neg; linarith),
      if_neg (by push_neg; linarith), if_neg (not_le.mpr hlt), if_pos h]
  · intro d h hlt
    rw [format_difficulty, if_neg (by push_neg; linarith), if_neg (by push_neg; linarith),
      if_neg (by push_neg; linarith), if_neg (by push_neg; linarith),
      if_neg (not_le.mpr hlt)]
  · rw [format_difficulty, if_neg (by norm_num), if_neg (by norm_num),
      if_pos (by norm_num)]
    rw [fmt2_eq ((2500000000 : ℚ) / 10 ^ 9) 250 (by norm_num) (by norm_num)]
    rfl
  · rw [format_difficulty, if_neg (by norm_num), if_neg (by norm_num),
      if_neg (by norm_num), if_neg (by norm_num), if_neg (by norm_num)]
    rw [fmt2_eq (999 : ℚ) 99900 (by norm_num) (by norm_num)]
    rfl
  · rw [format_difficulty, if_pos (by norm_num)]
    rw [fmt2_eq ((1500000000000000 : ℚ) / 10 ^ 15) 150 (by norm_num) (by norm_num)]
    rfl

/-- Witness for C8: the G and below-a-thousand branches applied at
concrete difficulties. -/
theorem c8_format_difficulty_witness :
    ((10 : ℚ) ^ 9 ≤ 5000000000 ∧ (5000000000 : ℚ) < 10 ^ 12 ∧
      format_difficulty 5000000000 = fmt2 ((5000000000 : ℚ) / 10 ^ 9) ++ " G")
    ∧ ((0 : ℚ) ≤ 42 ∧ (42 : ℚ) < 10 ^ 3 ∧ format_difficulty 42 = fmt2 42) :=
  ⟨⟨by norm_num, by norm_num,
    c8_format_difficulty.2.2.1 5000000000 (by norm_num) (by norm_num)⟩,
   ⟨by norm_num, by norm_num,
    c8_format_difficulty.2.2.2.2.2.1 42 (by norm_num) (by norm_num)⟩⟩

/-! ## Claims C3 and C10: codec round trip

The central lemma: the parser's string scanner exactly inverts the
encoder's escaping, for every Unicode scalar string. -/

theorem hexVal_hexDig : ∀ d : Nat, d < 16 → hexVal (hexDig d) = some d := by
  decide

theorem parse4Hex_hex4 (n : Nat) (h : n < 65536) (rest : List Char) :
    parse4Hex (hex4 n ++ rest) = some (n, rest) := by
  have h1 : n / 16 / 16 / 16 % 16 < 16 := Nat.mod_lt _ (by norm_num)
  have h2 : n / 16 / 16 % 16 < 16 := Nat.mod_lt _ (by norm_num)
  have h3 : n / 16 % 16 < 16 := Nat.mod_lt _ (by norm_num)
  have h4 : n % 16 < 16 := Nat.mod_lt _ (by norm_num)
  simp only [hex4, List.cons_append, List.nil_append, parse4Hex,
    hexVal_hexDig _ h1, hexVal_hexDig _ h2, hexVal_hexDig _ h3, hexVal_hexDig _ h4]
  rw [Option.some.injEq, Prod.mk.injEq]
  refine ⟨?_, rfl⟩
  omega

set_option maxHeartbeats 1000000 in
theorem escapeChar_length_pos (c : Char) : 0 < (escapeChar c).length := by
  unfold escapeChar
  split_ifs <;> simp [hex4]

theorem escapeList_length_ge (s : List Char) : s.length ≤ (escapeList s).length := by
  induction s with
  | nil => simp [escapeList]
  | cons c t ih =>
    simp only [escapeList, List.length_append, List.length_cons]
    have := escapeChar_length_pos c
    omega

theorem char_toNat_valid (c : Char) :
    c.toNat < 0xd800 ∨ (0xdfff < c.toNat ∧ c.toNat < 0x110000) := by
  have h := c.valid
  unfold UInt32.isValidChar at h
  unfold Nat.isValidChar at h
  rcases h with h | h
  · left
    have hn : c.val.toNat < (0xd800 : UInt32).toNat := h
    simpa using hn
  · right
    constructor
    · have hn : (0xdfff : UInt32).toNat < c.val.toNat := h.1
      simpa using hn
    · have hn : c.val.toNat < (0x110000 : UInt32).toNat := h.2
      simpa using hn

theorem char_eq_of_toNat (c : Char) (n : Nat) (h : c.toNat = n) : Char.ofNat n = c := by
  rw [← h, Char.ofNat_toNat]

/-- Parser step: a raw (unescaped) character. -/
theorem parseStringBody_step_raw (f : Nat) (c : Char) (X : List Char)
    (h1 : ¬ c = '"') (h2 : ¬ c = '\\') (h3 : ¬ c.toNat < 0x20) :
    parseStringBody (f + 1) (c :: X) = pushChar c (parseStringBody f X) := by
  simp only [parseStringBody, if_neg h1, if_neg h2, if_neg h3]

/-- Parser step: a BMP `\\uXXXX` escape outside the surrogate range. -/
theorem parseStringBody_step_u (f : Nat) (n : Nat) (X : List Char)
    (hn : n < 0x10000) (hs : ¬ (0xd800 ≤ n ∧ n < 0xe000)) :
    parseStringBody (f + 1) ('\\' :: 'u' :: (hex4 n ++ X)) =
      pushChar (Char.ofNat n) (parseStringBody f X) := by
  have hs1 : ¬ (0xd800 ≤ n ∧ n < 0xdc00) := by omega
  have hs2 : ¬ (0xdc00 ≤ n ∧ n < 0xe000) := by omega
  simp [parseStringBody, parse4Hex_hex4 n hn, hs1, hs2]

/-- Parser step: a surrogate-pair escape. -/
theorem parseStringBody_step_pair (f : Nat) (hi lo : Nat) (X : List Char)
    (hh1 : 0xd800 ≤ hi) (hh2 : hi < 0xdc00) (hl1 : 0xdc00 ≤ lo) (hl2 : lo < 0xe000) :
    parseStringBody (f + 1) ('\\' :: 'u' :: (hex4 hi ++ ('\\' :: 'u' :: (hex4 lo ++ X)))) =
      pushChar (Char.ofNat (0x10000 + (hi - 0xd800) * 0x400 + (lo - 0xdc00)))
        (parseStringBody f X) := by
  have hp1 : 0xd800 ≤ hi ∧ hi < 0xdc00 := ⟨hh1, hh2⟩
  have hp2 : 0xdc00 ≤ lo ∧ lo < 0xe000 := ⟨hl1, hl2⟩
  simp [parseStringBody, parse4Hex_hex4 hi (by omega), parse4Hex_hex4 lo (by omega),
    hp1, hp2]

theorem parseStringBody_step_quote (f : Nat) (X : List Char) :
    parseStringBody (f + 1) ('\\' :: '"' :: X) = pushChar '"' (parseStringBody f X) := rfl

theorem parseStringBody_step_bslash (f : Nat) (X : List Char) :
    parseStringBody (f + 1) ('\\' :: '\\' :: X) = pushChar '\\' (parseStringBody f X) := rfl

theorem parseStringBody_step_b (f : Nat) (X : List Char) :
    parseStringBody (f + 1) ('\\' :: 'b' :: X) = pushChar (Char.ofNat 8) (parseStringBody f X) := rfl

theorem parseStringBody_step_t (f : Nat) (X : List Char) :
    parseStringBody (f + 1) ('\\' :: 't' :: X) = pushChar (Char.ofNat 9) (parseStringBody f X) := rfl

theorem parseStringBody_step_n (f : Nat) (X : List Char) :
    parseStringBody (f + 1) ('\\' :: 'n' :: X) = pushChar (Char.ofNat 10) (parseStringBody f X) := rfl

theorem parseStringBody_step_f (f : Nat) (X : List Char) :
    parseStringBody (f + 1) ('\\' :: 'f' :: X) = pushChar (Char.ofNat 12) (parseStringBody f X) := rfl

theorem parseStringBody_step_r (f : Nat) (X : List Char) :
    parseStringBody (f + 1) ('\\' :: 'r' :: X) = pushChar (Char.ofNat 13) (parseStringBody f X) := rfl

/-- The string scanner inverts the encoder's escaping: parsing the
escaped form of `s` followed by a closing quote yields exactly `s`. -/
theorem parseStringBody_escape (s : List Char) :
    ∀ (fuel : Nat) (rest : List Char), s.length < fuel →
    parseStringBody fuel (escapeList s ++ ('"' :: rest)) = .ok (s, rest) := by
  induction s with
  | nil =>
    intro fuel rest hf
    obtain ⟨f, rfl⟩ : ∃ f, fuel = f + 1 := ⟨fuel - 1, by omega⟩
    simp [escapeList, parseStringBody]
  | cons c t ih =>
    intro fuel rest hf
    obtain ⟨f, rfl⟩ : ∃ f, fuel = f + 1 := ⟨fuel - 1, by omega⟩
    simp only [List.length_cons] at hf
    have hrec := ih f rest (by omega)
    rw [show escapeList (c :: t) = escapeChar c ++ escapeList t from rfl, List.append_assoc]
    by_cases h1 : c = '"'
    · subst h1
      show parseStringBody (f + 1) ('\\' :: '"' :: (escapeList t ++ '"' :: rest)) = _
      rw [parseStringBody_step_quote, hrec]
      rfl
    by_cases h2 : c = '\\'
    · subst h2
      show parseStringBody (f + 1) ('\\' :: '\\' :: (escapeList t ++ '"' :: rest)) = _
      rw [parseStringBody_step_bslash, hrec]
      rfl
    by_cases h3 : c.toNat = 8
    · have he : escapeChar c = ['\\', 'b'] := by simp [escapeChar, h1, h2, h3]
      rw [he]
      simp only [List.cons_append, List.nil_append]
      rw [parseStringBody_step_b, hrec, char_eq_of_toNat c 8 h3]
      rfl
    by_cases h4 : c.toNat = 9
    · have he : escapeChar c = ['\\', 't'] := by simp [escapeChar, h1, h2, h3, h4]
      rw [he]
      simp only [List.cons_append, List.nil_append]
      rw [parseStringBody_step_t, hrec, char_eq_of_toNat c 9 h4]
      rfl
    by_cases h5 : c.toNat = 10
    · have he : escapeChar c = ['\\', 'n'] := by simp [escapeChar, h1, h2, h3, h4, h5]
      rw [he]
      simp only [List.cons_append, List.nil_append]
      rw [parseStringBody_step_n, hrec, char_eq_of_toNat c 10 h5]
      rfl
    by_cases h6 : c.toNat = 12
    · have he : escapeChar c = ['\\', 'f'] := by simp [escapeChar, h1, h2, h3, h4, h5, h6]
      rw [he]
      simp only [List.cons_append, List.nil_append]
      rw [parseStringBody_step_f, hrec, char_eq_of_toNat c 12 h6]
      rfl
    by_cases h7 : c.toNat = 13
    · have he : escapeChar c = ['\\', 'r'] := by simp [escapeChar, h1, h2, h3, h4, h5, h6, h7]
      rw [he]
      simp only [List.cons_append, List.nil_append]
      rw [parseStringBody_step_r, hrec, char_eq_of_toNat c 13 h7]
      rfl
    by_cases h8 : c.toNat < 0x20
    · have he : escapeChar c = '\\' :: 'u' :: hex4 c.toNat := by
        simp [escapeChar, h1, h2, h3, h4, h5, h6, h7, h8]
      rw [he]
      simp only [List.cons_append, List.append_assoc]
      rw [parseStringBody_step_u f c.toNat _ (by omega) (by omega)]
      rw [hrec, Char.ofNat_toNat]
      rfl
    by_cases h9 : c.toNat ≤ 0x7e
    · have he : escapeChar c = [c] := by
        simp [escapeChar, h1, h2, h3, h4, h5, h6, h7, h8, h9]
      rw [he]
      simp only [List.cons_append, List.nil_append]
      rw [parseStringBody_step_raw f c _ h1 h2 h8, hrec]
      rfl
    by_cases h10 : c.toNat < 0x10000
    · have he : escapeChar c = '\\' :: 'u' :: hex4 c.toNat := by
        simp [escapeChar, h1, h2, h3, h4, h5, h6, h7, h8, h9, h10]
      have hs : ¬ (0xd800 ≤ c.toNat ∧ c.toNat < 0xe000) := by
        rcases char_toNat_valid c with hv | hv <;> omega
      rw [he]
      simp only [List.cons_append, List.append_assoc]
      rw [parseStringBody_step_u f c.toNat _ h10 hs]
      rw [hrec, Char.ofNat_toNat]
      rfl
    · have hv : c.toNat < 0x110000 := by
        rcases char_toNat_valid c with hv | hv <;> omega
      have he : escapeChar c =
          '\\' :: 'u' :: (hex4 (0xd800 + (c.toNat - 0x10000) / 0x400) ++
          ('\\' :: 'u' :: hex4 (0xdc00 + (c.toNat - 0x10000) % 0x400))) := by
        simp [escapeChar, h1, h2, h3, h4, h5, h6, h7, h8, h9, h10]
      rw [he]
      simp only [List.cons_append, List.append_assoc]
      rw [parseStringBody_step_pair f _ _ _ (by omega) (by omega) (by omega) (by omega)]
      have harith : 0x10000 + ((0xd800 + (c.toNat - 0x10000) / 0x400) - 0xd800) * 0x400 +
          ((0xdc00 + (c.toNat - 0x10000) % 0x400) - 0xdc00) = c.toNat := by omega
      rw [harith, Char.ofNat_toNat, hrec]
      rfl

/-- Parser step: an object opener followed by a key. -/
theorem parseAny_step_obj (g : Nat) (X : List Char) :
    parseAny (g + 1) .value ('{' :: ('"' :: X)) = parseAny g .members ('"' :: X) := rfl

theorem skipWs_comma (X : List Char) : skipWs (',' :: X) = ',' :: X := rfl

theorem skipWs_rbrace (X : List Char) : skipWs ('}' :: X) = '}' :: X := rfl

/-- Parser step: a string value. -/
theorem parseAny_value_string (g : Nat) (sc X : List Char) :
    parseAny (g + 1) .value ('"' :: (escapeList sc ++ ('"' :: X))) = .ok (.str ⟨sc⟩, X) := by
  have hlen : sc.length < (escapeList sc ++ ('"' :: X)).length + 1 := by
    have := escapeList_length_ge sc
    simp only [List.length_append, List.length_cons]
    omega
  rw [show parseAny (g + 1) .value ('"' :: (escapeList sc ++ ('"' :: X))) =
      (match parseStringBody ((escapeList sc ++ ('"' :: X)).length + 1)
          (escapeList sc ++ ('"' :: X)) with
       | .ok (s, r) => .ok (.str ⟨s⟩, r)
       | .error e => .error e) from rfl]
  rw [parseStringBody_escape sc _ X hlen]

/-- Parser step: one object member (key, colon, then value). -/
theorem parseAny_members_step (g : Nat) (k X : List Char) :
    parseAny (g + 1) .members ('"' :: (escapeList k ++ ('"' :: ':' :: X))) =
      (match parseAny g .value X with
       | .error e => .error e
       | .ok (v, rest4) =>
         match skipWs rest4 with
         | ',' :: rest5 =>
           match parseAny g .members rest5 with
           | .ok (.obj fields, rest6) => .ok (.obj ((⟨k⟩, v) :: fields), rest6)
           | .ok (_, _) => .error "object members expected"
           | .error e => .error e
         | '}' :: rest5 => .ok (.obj [(⟨k⟩, v)], rest5)
         | _ => .error "expecting , delimiter") := by
  have hlen : k.length < (escapeList k ++ ('"' :: ':' :: X)).length + 1 := by
    have := escapeList_length_ge k
    simp only [List.length_append, List.length_cons]
    omega
  rw [show parseAny (g + 1) .members ('"' :: (escapeList k ++ ('"' :: ':' :: X))) =
      (match parseStringBody ((escapeList k ++ ('"' :: ':' :: X)).length + 1)
          (escapeList k ++ ('"' :: ':' :: X)) with
       | .error e => .error e
       | .ok (key, rest2) =>
         match skipWs rest2 with
         | ':' :: rest3 =>
           match parseAny g .value rest3 with
           | .error e => .error e
           | .ok (v, rest4) =>
             match skipWs rest4 with
             | ',' :: rest5 =>
               match parseAny g .members rest5 with
               | .ok (.obj fields, rest6) => .ok (.obj ((⟨key⟩, v) :: fields), rest6)
               | .ok (_, _) => .error "object members expected"
               | .error e => .error e
             | '}' :: rest5 => .ok (.obj [(⟨key⟩, v)], rest5)
             | _ => .error "expecting , delimiter"
         | _ => .error "expecting : delimiter") from rfl]
  rw [parseStringBody_escape k _ (':' :: X) hlen]
  rfl

/-- Parsing the wire form of a command with a parameter. -/
theorem parseAny_encodeCmdParam (c p : List Char) (f : Nat) :
    parseAny (f + 1 + 1 + 1 + 1 + 1) .value (encodeCmdParam c p) =
      .ok (.obj [("command", .str ⟨c⟩), ("parameter", .str ⟨p⟩)], []) := by
  have hnorm : encodeCmdParam c p =
      '{' :: ('"' :: (escapeList "command".data ++ ('"' :: ':' ::
        ('"' :: (escapeList c ++ ('"' :: ',' ::
        ('"' :: (escapeList "parameter".data ++ ('"' :: ':' ::
        ('"' :: (escapeList p ++ ('"' :: '}' :: [])))))))))))) := by
    simp [encodeCmdParam, quoteJson]
  rw [hnorm]
  rw [parseAny_step_obj]
  rw [parseAny_members_step]
  rw [parseAny_value_string]
  simp only [parseAny_members_step, parseAny_value_string, skipWs_comma, skipWs_rbrace]

/-- Parsing the wire form of a parameterless command. -/
theorem parseAny_encodeCmdOnly (c : List Char) (f : Nat) :
    parseAny (f + 1 + 1 + 1) .value (encodeCmdOnly c) =
      .ok (.obj [("command", .str ⟨c⟩)], []) := by
  have hnorm : encodeCmdOnly c =
      '{' :: ('"' :: (escapeList "command".data ++ ('"' :: ':' ::
        ('"' :: (escapeList c ++ ('"' :: '}' :: [])))))) := by
    simp [encodeCmdOnly, quoteJson]
  rw [hnorm]
  rw [parseAny_step_obj]
  rw [parseAny_members_step]
  rw [parseAny_value_string]
  simp only [skipWs_rbrace]

theorem rstripIf_last (pr : Char → Bool) (l : List Char) (c : Char) (h : pr c = false) :
    rstripIf pr (l ++ [c]) = l ++ [c] := by
  simp [rstripIf, List.reverse_append, List.dropWhile_cons, h]

theorem stripPadding_encodeCmdParam (c p : List Char) :
    stripPadding (encodeCmdParam c p) = encodeCmdParam c p := by
  have hsplit : encodeCmdParam c p =
      ('{' :: quoteJson "command".data ++ ':' :: quoteJson c ++
        ',' :: quoteJson "parameter".data ++ ':' :: quoteJson p) ++ ['}'] := by
    simp [encodeCmdParam]
  rw [hsplit]
  unfold stripPadding
  rw [rstripIf_last _ _ _ (by decide), rstripIf_last _ _ _ (by decide)]
  simp only [List.cons_append, List.dropWhile_cons]
  rw [show isPyWs '{' = false from rfl]
  simp

theorem stripPadding_encodeCmdOnly (c : List Char) :
    stripPadding (encodeCmdOnly c) = encodeCmdOnly c := by
  have hsplit : encodeCmdOnly c =
      ('{' :: quoteJson "command".data ++ ':' :: quoteJson c) ++ ['}'] := by
    simp [encodeCmdOnly]
  rw [hsplit]
  unfold stripPadding
  rw [rstripIf_last _ _ _ (by decide), rstripIf_last _ _ _ (by decide)]
  simp only [List.cons_append, List.dropWhile_cons]
  rw [show isPyWs '{' = false from rfl]
  simp

theorem encodeCmdParam_length_ge (c p : List Char) : 4 ≤ (encodeCmdParam c p).length := by
  simp [encodeCmdParam, quoteJson]
  omega

theorem encodeCmdOnly_length_ge (c : List Char) : 2 ≤ (encodeCmdOnly c).length := by
  simp [encodeCmdOnly, quoteJson]

theorem json_loads_encodeCmdParam (c p : List Char) :
    json_loads (encodeCmdParam c p) =
      .ok (.obj [("command", .str ⟨c⟩), ("parameter", .str ⟨p⟩)]) := by
  unfold json_loads
  obtain ⟨m, hm⟩ : ∃ m, (encodeCmdParam c p).length + 1 = m + 1 + 1 + 1 + 1 + 1 := by
    have := encodeCmdParam_length_ge c p
    exact ⟨(encodeCmdParam c p).length - 4, by omega⟩
  rw [hm, parseAny_encodeCmdParam]
  rfl

theorem json_loads_encodeCmdOnly (c : List Char) :
    json_loads (encodeCmdOnly c) = .ok (.obj [("command", .str ⟨c⟩)]) := by
  unfold json_loads
  obtain ⟨m, hm⟩ : ∃ m, (encodeCmdOnly c).length + 1 = m + 1 + 1 + 1 := by
    have := encodeCmdOnly_length_ge c
    exact ⟨(encodeCmdOnly c).length - 2, by omega⟩
  rw [hm, parseAny_encodeCmdOnly]
  rfl

theorem decode_encodeCmdParam (c p : List Char) :
    decode_response (encodeCmdParam c p) =
      .ok (.obj [("command", .str ⟨c⟩), ("parameter", .str ⟨p⟩)]) := by
  unfold decode_response
  rw [stripPadding_encodeCmdParam, json_loads_encodeCmdParam]

theorem decode_encodeCmdOnly (c : List Char) :
    decode_response (encodeCmdOnly c) = .ok (.obj [("command", .str ⟨c⟩)]) := by
  unfold decode_response
  rw [stripPadding_encodeCmdOnly, json_loads_encodeCmdOnly]

/-- Counterexample to claim C3 as stated: with the empty parameter
string the `parameter` key is omitted from the wire form, so decoding
recovers no parameter value at all — the original empty parameter
string is not reproduced. -/
theorem c3_counterexample :
    decodedParam "estats" "" = none ∧ decodedParam "estats" "" ≠ some (.str "") := by
  have h : decodedParam "estats" "" = none := rfl
  refine ⟨h, ?_⟩
  intro hc
  rw [h] at hc
  exact Option.noConfusion hc

/-- Claim C3, amended: for every command name and every non-empty
parameter string, encoding (compact JSON, `command` then `parameter`)
followed by decoding through the codec's JSON layer reproduces the
command name and parameter string exactly; with an empty parameter
string the `parameter` key is omitted and decodes to an object holding
only the command name. -/
theorem c3_roundtrip :
    (∀ c p : String, p ≠ "" →
      decode_response (send_command_payload c.data p.data) =
        .ok (.obj [("command", .str c), ("parameter", .str p)]))
    ∧ (∀ c : String,
        decode_response (send_command_payload c.data "".data) =
          .ok (.obj [("command", .str c)])) := by
  constructor
  · intro c p hp
    have hpd : p.data ≠ [] := by
      intro h
      apply hp
      cases p
      cases h
      rfl
    rw [send_command_payload, if_neg hpd]
    exact decode_encodeCmdParam c.data p.data
  · intro c
    rw [send_command_payload, if_pos rfl]
    exact decode_encodeCmdOnly c.data

/-- Witness for the amended C3 at a concrete command and parameter
(the fan-speed command, whose parameter needs no escaping) and at a
command name that exercises the escaper. -/
theorem c3_roundtrip_witness :
    ("0,fan-spd,-1" ≠ "") ∧
    decode_response (send_command_payload "ascset".data "0,fan-spd,-1".data) =
      .ok (.obj [("command", .str "ascset"), ("parameter", .str "0,fan-spd,-1")]) :=
  ⟨by decide, c3_roundtrip.1 "ascset" "0,fan-spd,-1" (by decide)⟩

/-! ## Claim C10 -/

/-- Claim C10 (implicit): an empty parameter string is encoded exactly
like an absent parameter — the wire bytes equal the parameterless
form `{"command":"<name>"}`, and decoding yields an object with only
the `command` key. -/
theorem c10_empty_param_omitted :
    ∀ c : String,
      send_command_payload c.data "".data = encodeCmdOnly c.data
      ∧ decode_response (send_command_payload c.data "".data) =
          .ok (.obj [("command", .str c)]) := by
  intro c
  refine ⟨?_, ?_⟩
  · rw [send_command_payload, if_pos rfl]
  · rw [send_command_payload, if_pos rfl]
    exact decode_encodeCmdOnly c.data

end AvalonMiner
